import Mathlib

/-!
# `kraft cloud img rm` — a shallow embedding of `remove.go`

The development embeds `RemoveOptions.Pre` and `RemoveOptions.Run` of
`internal/cli/kraft/cloud/img/remove/remove.go`.

* Go strings are embedded as Lean strings; the three `strings` functions the
  command uses are written on the underlying character lists exactly as the Go
  standard library writes them on bytes (length test, then slice comparison).
* Go `error` values are embedded as `GoError`: what `fmt.Errorf` builds without
  a `%w` verb (`errorString`) and with one (`wrapError`).
* The remote service is a state machine over an arbitrary world type `σ`; every
  call the command makes is also appended to a trace of `Event`s, so that the
  order and number of calls can be stated.
-/

namespace Kraftkit.Remove

/-! ## Strings (Go package `strings`) -/

/-- Go `strings.HasPrefix`: `len(s) >= len(prefix) && s[0:len(prefix)] == prefix`. -/
def HasPrefix (s pre : String) : Bool :=
  decide (pre.data.length ≤ s.data.length) && (s.data.take pre.data.length == pre.data)

/-- Go `strings.HasSuffix`:
`len(s) >= len(suffix) && s[len(s)-len(suffix):] == suffix`. -/
def HasSuffix (s suf : String) : Bool :=
  decide (suf.data.length ≤ s.data.length) &&
    (s.data.drop (s.data.length - suf.data.length) == suf.data)

/-- Go `strings.TrimPrefix`: `s[len(prefix):]` when `s` has the prefix, else `s`. -/
def TrimPrefix (s pre : String) : String :=
  if HasPrefix s pre then String.mk (s.data.drop pre.data.length) else s

/-- Go `strings.TrimSuffix`: `s[:len(s)-len(suffix)]` when `s` has the suffix, else `s`. -/
def TrimSuffix (s suf : String) : String :=
  if HasSuffix s suf then String.mk (s.data.take (s.data.length - suf.data.length)) else s

/-! ## Errors -/

/-- Go `error` values as this command builds and receives them. -/
inductive GoError where
  /-- An error carrying only a message (`fmt.Errorf` without `%w`, `errors.New`). -/
  | errorString (s : String)
  /-- The value of `fmt.Errorf` with one `%w` verb: the formatted message and the
  wrapped error. -/
  | wrapError (msg : String) (err : GoError)
deriving DecidableEq, Repr

/-- Method `Error()` of a Go error. -/
def GoError.Error : GoError → String
  | .errorString s => s
  | .wrapError msg _ => msg

/-- Method `Unwrap()` of a Go error (`errors.Unwrap`). -/
def GoError.Unwrap : GoError → Option GoError
  | .errorString _ => none
  | .wrapError _ err => some err

/-- The value of `fmt.Errorf(format + "%w", err)`, `format` holding no verb. -/
def errorfW (format : String) (err : GoError) : GoError :=
  .wrapError (format ++ err.Error) err

/-! ## Data model -/

/-- The credential record `config.AuthConfig`, with the fields the command reads. -/
structure AuthConfig where
  User : String
  Token : String
deriving DecidableEq, Repr

/-- An image record of `sdk.kraft.cloud/images`, with the field the command reads. -/
structure Image where
  Digest : String
deriving DecidableEq, Repr

/-- Modelled from the spec: the interface `kraftcloudimages.ImagesService` is declared
outside this file. The spec gives `WithMetro(metro) -> ScopedClient`,
`ScopedClient.List(ctx) -> [ImageRecord] | Error` and
`ScopedClient.DeleteByName(ctx, name) -> () | Error`. A call is a transition of
the remote world `σ`; the first argument of each field is the metro the client
was scoped to by `WithMetro`. -/
structure ImagesService (σ : Type) where
  List : String → σ → Except GoError (List Image) × σ
  DeleteByName : String → String → σ → Option GoError × σ

/-- The struct `RemoveOptions`; a nil `Auth` or `Client` is `none`. -/
structure RemoveOptions (σ : Type) where
  All : Bool
  Auth : Option AuthConfig
  Client : Option (ImagesService σ)
  Metro : String

/-- Log levels used by the command. -/
inductive Level where
  | debug
  | info
  | error
deriving DecidableEq, Repr

/-- The two places of `Run` that call `DeleteByName`. -/
inductive Site where
  /-- Line 94, inside the all-mode loop. -/
  | allMode
  /-- Line 101, inside the loop over the positional arguments. -/
  | explicit
deriving DecidableEq, Repr

/-- What the command does to its collaborators, in the order it does it. -/
inductive Event where
  /-- The call `config.GetKraftCloudAuthConfigFromContext(ctx)`. -/
  | getCredentials
  /-- The call `kraftcloud.NewImagesClient(kraftcloud.WithToken(token))`. -/
  | newImagesClient (token : String)
  /-- The call `WithMetro(metro).List(ctx)`. -/
  | list (metro : String)
  /-- The call `WithMetro(metro).DeleteByName(ctx, name)` made at `site`. -/
  | deleteByName (site : Site) (metro name : String)
  /-- A log entry: level, structured fields, message. -/
  | log (level : Level) (fields : List (String × String)) (msg : String)
deriving DecidableEq, Repr

/-- Modelled from the spec: the collaborators `Run` reaches through its context and
through package-level functions, all declared outside this file. The spec gives
`GetCredentialsFromContext(ctx) -> CredentialRecord | Error` and
`DeriveTokenAuth(CredentialRecord) -> Token`; `NewImagesClient` is the client
factory applied to that token. -/
structure Env (σ : Type) where
  GetKraftCloudAuthConfigFromContext : Except GoError AuthConfig
  GetKraftCloudTokenAuthConfig : AuthConfig → String
  NewImagesClient : String → ImagesService σ

/-! ## `Pre` -/

/-- The result of `Pre`: the returned error, the options as `Pre` left them, and
the log entries written. -/
structure PreResult (σ : Type) where
  err : Option GoError
  opts : RemoveOptions σ
  trace : List Event

/-- `RemoveOptions.Pre` (lines 47–63). `flagMetro` is
`cmd.Flag("metro").Value.String()` and `envMetro` is
`os.Getenv("KRAFTCLOUD_METRO")`. -/
def Pre {σ : Type} (opts : RemoveOptions σ) (flagMetro envMetro : String)
    (args : List String) : PreResult σ :=
  if !opts.All && args.length == 0 then
    ⟨some (.errorString "either specify an image name, or use the --all flag"), opts, []⟩
  else
    let opts₁ := { opts with Metro := flagMetro }
    let opts₂ := if opts₁.Metro = "" then { opts₁ with Metro := envMetro } else opts₁
    if opts₂.Metro = "" then
      ⟨some (.errorString "kraftcloud metro is unset"), opts₂, []⟩
    else
      ⟨none, opts₂, [Event.log .debug [("metro", opts₂.Metro)] "using"]⟩

/-! ## `Run` -/

/-- The owner id of line 88:
`strings.TrimSuffix(strings.TrimPrefix(user, "robot$"), ".users.kraftcloud")`. -/
def ownerId (user : String) : String :=
  TrimSuffix (TrimPrefix user "robot$") ".users.kraftcloud"

/-- The state `Run` threads: the receiver `opts`, the function-level variable
`err` of line 66, the remote world, and the trace so far. -/
structure RunState (σ : Type) where
  opts : RemoveOptions σ
  err : Option GoError
  world : σ
  trace : List Event

/-- Lines 68–73: resolve the credentials. An early `return` is the `error` case,
with the error returned and the state at that point. -/
def Run.credentials {σ : Type} (env : Env σ) (s : RunState σ) :
    Except (GoError × RunState σ) (AuthConfig × RunState σ) :=
  match s.opts.Auth with
  | some a => .ok (a, s)
  | none =>
    let s₁ := { s with trace := s.trace ++ [Event.getCredentials] }
    match env.GetKraftCloudAuthConfigFromContext with
    | .error e =>
      let s₂ := { s₁ with err := some e }
      .error (errorfW "could not retrieve credentials: " e, s₂)
    | .ok a =>
      let s₂ := { s₁ with opts := { s₁.opts with Auth := some a }, err := none }
      .ok (a, s₂)

/-- Lines 75–79: build the client when none was supplied. -/
def Run.client {σ : Type} (env : Env σ) (a : AuthConfig) (s : RunState σ) :
    ImagesService σ × RunState σ :=
  match s.opts.Client with
  | some c => (c, s)
  | none =>
    let token := env.GetKraftCloudTokenAuthConfig a
    let c := env.NewImagesClient token
    (c, { s with opts := { s.opts with Client := some c },
                 trace := s.trace ++ [Event.newImagesClient token] })

/-- Lines 87–97: the loop over the listed images. -/
def Run.sweepAll {σ : Type} (c : ImagesService σ) (a : AuthConfig) :
    List Image → RunState σ → RunState σ
  | [], s => s
  | image :: images, s =>
    if !HasPrefix image.Digest (ownerId a.User) then
      Run.sweepAll c a images s
    else
      let s₁ := { s with trace := s.trace ++ [Event.log .info [] ("removing " ++ image.Digest)] }
      let r := c.DeleteByName s₁.opts.Metro image.Digest s₁.world
      let s₂ := { s₁ with world := r.2,
                          trace := s₁.trace ++ [Event.deleteByName .allMode s₁.opts.Metro image.Digest] }
      match r.1 with
      | some e =>
        Run.sweepAll c a images
          { s₂ with trace := s₂.trace ++
              [Event.log .error [] ("could not delete image: " ++ e.Error)] }
      | none => Run.sweepAll c a images s₂

/-- Lines 81–98: the all-mode block. -/
def Run.allMode {σ : Type} (c : ImagesService σ) (a : AuthConfig) (s : RunState σ) :
    Except (GoError × RunState σ) (RunState σ) :=
  if s.opts.All then
    let r := c.List s.opts.Metro s.world
    let s₁ := { s with world := r.2, trace := s.trace ++ [Event.list s.opts.Metro] }
    match r.1 with
    | .error e => .error (errorfW "could not get list of all images: " e, s₁)
    | .ok images => .ok (Run.sweepAll c a images s₁)
  else
    .ok s

/-- Lines 100–106: the loop over the positional arguments. -/
def Run.sweepArgs {σ : Type} (c : ImagesService σ) :
    List String → RunState σ → Except (GoError × RunState σ) (RunState σ)
  | [], s => .ok s
  | arg :: args, s =>
    let r := c.DeleteByName s.opts.Metro arg s.world
    let s₁ := { s with world := r.2,
                       trace := s.trace ++ [Event.deleteByName .explicit s.opts.Metro arg] }
    match r.1 with
    | some e => .error (errorfW "could not delete image: " e, s₁)
    | none =>
      Run.sweepArgs c args
        { s₁ with trace := s₁.trace ++ [Event.log .info [] ("removing " ++ arg)] }

/-- Lines 66–98: everything `Run` does before the loop over the arguments. The
`ok` case gives the client in use and the state in which that loop starts. -/
def Run.beforeArgs {σ : Type} (env : Env σ) (opts : RemoveOptions σ) (w : σ) :
    Except (GoError × RunState σ) (ImagesService σ × RunState σ) :=
  match Run.credentials env ⟨opts, none, w, []⟩ with
  | .error x => .error x
  | .ok (a, s₁) =>
    let cs := Run.client env a s₁
    match Run.allMode cs.1 a cs.2 with
    | .error x => .error x
    | .ok s₂ => .ok (cs.1, s₂)

/-- The result of `Run`: the returned error and the final state. -/
structure RunResult (σ : Type) where
  err : Option GoError
  state : RunState σ

/-- `RemoveOptions.Run` (lines 65–109), started on options `opts`, arguments
`args` and remote world `w`. -/
def Run {σ : Type} (env : Env σ) (opts : RemoveOptions σ) (args : List String) (w : σ) :
    RunResult σ :=
  match Run.beforeArgs env opts w with
  | .error x => ⟨some x.1, x.2⟩
  | .ok (c, s) =>
    match Run.sweepArgs c args s with
    | .error x => ⟨some x.1, x.2⟩
    | .ok s₁ => ⟨s₁.err, s₁⟩

/-! ## Reading a trace -/

/-- The names passed to `DeleteByName`, in call order. -/
def deleteCalls (t : List Event) : List String :=
  t.filterMap fun ev =>
    match ev with
    | .deleteByName _ _ name => some name
    | _ => none

/-- The names passed to `DeleteByName` at one call site, in call order. -/
def deleteCallsAt (site : Site) (t : List Event) : List String :=
  t.filterMap fun ev =>
    match ev with
    | .deleteByName s _ name => if s = site then some name else none
    | _ => none

/-- The number of `List` calls. -/
def listCalls (t : List Event) : Nat :=
  t.countP fun ev =>
    match ev with
    | .list _ => true
    | _ => false

/-- The number of calls to the credential provider. -/
def credentialCalls (t : List Event) : Nat :=
  t.countP fun ev =>
    match ev with
    | .getCredentials => true
    | _ => false

/-! ## Vocabulary of the claims -/

/-- The digests of `images` that start with the owner id of `user`, in listing order. -/
def ownedDigests (user : String) (images : List Image) : List String :=
  (images.map Image.Digest).filter fun d => HasPrefix d (ownerId user)

/-- The credential record `Run` works with: the one supplied in the options, or
else what the provider gives. -/
def resolvedAuth {σ : Type} (env : Env σ) (opts : RemoveOptions σ) : Except GoError AuthConfig :=
  match opts.Auth with
  | some a => .ok a
  | none => env.GetKraftCloudAuthConfigFromContext

/-- The client `Run` works with under credentials `a`: the one supplied in the
options, or else the one built from the token of `a`. -/
def resolvedClient {σ : Type} (env : Env σ) (opts : RemoveOptions σ) (a : AuthConfig) :
    ImagesService σ :=
  match opts.Client with
  | some c => c
  | none => env.NewImagesClient (env.GetKraftCloudTokenAuthConfig a)

/-- The world after `DeleteByName` was called on each of `names`, in order. -/
def worldAfterDeletes {σ : Type} (c : ImagesService σ) (metro : String) :
    List String → σ → σ
  | [], w => w
  | name :: names, w => worldAfterDeletes c metro names (c.DeleteByName metro name w).2

/-- What the call of `DeleteByName` on `names[j]` returns when the calls on
`names[0]`, …, `names[j]` are made in order from world `w`. -/
def deleteResult {σ : Type} (c : ImagesService σ) (metro : String) (names : List String)
    (w : σ) (j : Nat) : Option GoError :=
  (c.DeleteByName metro (names.getD j "") (worldAfterDeletes c metro (names.take j) w)).1

/-- Index `i` is the first of `names` whose deletion fails, and it fails with `e`. -/
def FirstFailureAt {σ : Type} (c : ImagesService σ) (metro : String) (names : List String)
    (w : σ) (i : Nat) (e : GoError) : Prop :=
  i < names.length ∧ (∀ j, j < i → deleteResult c metro names w j = none) ∧
    deleteResult c metro names w i = some e

instance {σ : Type} (c : ImagesService σ) (metro : String) (names : List String)
    (w : σ) (i : Nat) (e : GoError) : Decidable (FirstFailureAt c metro names w i e) := by
  unfold FirstFailureAt; infer_instance

/-- The deletion of every one of `names`, made in order from world `w`, succeeds. -/
def NoFailure {σ : Type} (c : ImagesService σ) (metro : String) (names : List String)
    (w : σ) : Prop :=
  ∀ j, j < names.length → deleteResult c metro names w j = none

instance {σ : Type} (c : ImagesService σ) (metro : String) (names : List String)
    (w : σ) : Decidable (NoFailure c metro names w) := by
  unfold NoFailure; infer_instance

/-- A stretch of trace in which `DeleteByName` is called at `site` only, on
`names`, and neither `List` nor the credential provider is called. -/
structure Stretch (site : Site) (names : List String) (t : List Event) : Prop where
  calls : deleteCalls t = names
  atSite : deleteCallsAt site t = names
  elsewhere : ∀ other, other ≠ site → deleteCallsAt other t = []
  lists : listCalls t = 0
  creds : credentialCalls t = 0

/-- The trace of lines 68–79 when credentials `a` are available. -/
def setupTrace {σ : Type} (env : Env σ) (opts : RemoveOptions σ) (a : AuthConfig) : List Event :=
  (match opts.Auth with
    | none => [Event.getCredentials]
    | some _ => []) ++
  (match opts.Client with
    | none => [Event.newImagesClient (env.GetKraftCloudTokenAuthConfig a)]
    | some _ => [])

/-- The state in which line 81 is reached when credentials `a` are available. -/
def setupState {σ : Type} (env : Env σ) (opts : RemoveOptions σ) (a : AuthConfig) (w : σ) :
    RunState σ :=
  ⟨{ opts with Auth := some a, Client := some (resolvedClient env opts a) }, none, w,
    setupTrace env opts a⟩

/-! ## Worked inputs -/

/-- An images service over the list of names deleted so far: `List` returns one
record per digest in `digests`, and `DeleteByName` fails on the names in
`failing` and records every other name. -/
def demoClient (digests failing : List String) : ImagesService (List String) where
  List := fun _ w => (.ok (digests.map Image.mk), w)
  DeleteByName := fun _ name w =>
    if name ∈ failing then (some (.errorString "image not found"), w) else (none, w ++ [name])

/-- An images service whose `List` call fails. -/
def downClient : ImagesService (List String) where
  List := fun _ w => (.error (.errorString "service unavailable"), w)
  DeleteByName := fun _ name w => (none, w ++ [name])

/-- Collaborators whose credential provider fails and whose client factory
gives `c`. -/
def demoEnv (c : ImagesService (List String)) : Env (List String) where
  GetKraftCloudAuthConfigFromContext := .error (.errorString "no credentials in context")
  GetKraftCloudTokenAuthConfig := fun a => a.User ++ ":" ++ a.Token
  NewImagesClient := fun _ => c

/-- The credential record of the worked inputs. -/
def demoAuth : AuthConfig := ⟨"robot$abc123.users.kraftcloud", "secret"⟩

/-- Options for metro `fra0` with the credentials of the worked inputs and no
client supplied. -/
def demoOpts (all : Bool) : RemoveOptions (List String) := ⟨all, some demoAuth, none, "fra0"⟩

/-! ## Lemmas on strings -/

theorem hasPrefix_iff (s pre : String) : HasPrefix s pre = true ↔ pre.data <+: s.data := by
  unfold HasPrefix
  simp only [Bool.and_eq_true, decide_eq_true_eq, beq_iff_eq]
  constructor
  · rintro ⟨-, h⟩
    rw [← h]; exact List.take_prefix _ _
  · intro h
    exact ⟨h.length_le, List.prefix_iff_eq_take.mp h |>.symm⟩

theorem hasPrefix_empty (s : String) : HasPrefix s "" = true := by
  rw [hasPrefix_iff]; exact List.nil_prefix

/-! ## Lemmas on traces -/

@[simp] theorem deleteCalls_nil : deleteCalls [] = [] := rfl

@[simp] theorem deleteCalls_append (t u : List Event) :
    deleteCalls (t ++ u) = deleteCalls t ++ deleteCalls u := by
  simp [deleteCalls, List.filterMap_append]

@[simp] theorem deleteCallsAt_nil (site : Site) : deleteCallsAt site [] = [] := rfl

@[simp] theorem deleteCallsAt_append (site : Site) (t u : List Event) :
    deleteCallsAt site (t ++ u) = deleteCallsAt site t ++ deleteCallsAt site u := by
  simp [deleteCallsAt, List.filterMap_append]

@[simp] theorem listCalls_nil : listCalls [] = 0 := rfl

@[simp] theorem listCalls_append (t u : List Event) :
    listCalls (t ++ u) = listCalls t + listCalls u := by
  simp [listCalls, List.countP_append]

@[simp] theorem credentialCalls_nil : credentialCalls [] = 0 := rfl

@[simp] theorem credentialCalls_append (t u : List Event) :
    credentialCalls (t ++ u) = credentialCalls t + credentialCalls u := by
  simp [credentialCalls, List.countP_append]

theorem listCalls_list (metro : String) : listCalls [Event.list metro] = 1 := rfl

theorem credentialCalls_list (metro : String) : credentialCalls [Event.list metro] = 0 := rfl

theorem Stretch.nil (site : Site) : Stretch site [] [] :=
  ⟨rfl, rfl, fun _ _ => rfl, rfl, rfl⟩

theorem Stretch.log (site : Site) (lvl : Level) (f : List (String × String)) (m : String) :
    Stretch site [] [Event.log lvl f m] :=
  ⟨rfl, rfl, fun _ _ => rfl, rfl, rfl⟩

theorem Stretch.newClient (site : Site) (tok : String) :
    Stretch site [] [Event.newImagesClient tok] :=
  ⟨rfl, rfl, fun _ _ => rfl, rfl, rfl⟩

theorem Stretch.delete (site : Site) (metro name : String) :
    Stretch site [name] [Event.deleteByName site metro name] := by
  refine ⟨rfl, ?_, ?_, rfl, rfl⟩
  · simp [deleteCallsAt]
  · intro other h
    simp [deleteCallsAt, Ne.symm h]

theorem Stretch.append {site : Site} {ns ms : List String} {t u : List Event}
    (ht : Stretch site ns t) (hu : Stretch site ms u) : Stretch site (ns ++ ms) (t ++ u) := by
  refine ⟨?_, ?_, ?_, ?_, ?_⟩
  · rw [deleteCalls_append, ht.calls, hu.calls]
  · rw [deleteCallsAt_append, ht.atSite, hu.atSite]
  · intro other h
    rw [deleteCallsAt_append, ht.elsewhere other h, hu.elsewhere other h]; rfl
  · rw [listCalls_append, ht.lists, hu.lists]
  · rw [credentialCalls_append, ht.creds, hu.creds]

/-! ## Lemmas on the order of failures -/

theorem deleteResult_zero {σ : Type} (c : ImagesService σ) (metro a : String)
    (rest : List String) (w : σ) :
    deleteResult c metro (a :: rest) w 0 = (c.DeleteByName metro a w).1 := rfl

theorem deleteResult_succ {σ : Type} (c : ImagesService σ) (metro a : String)
    (rest : List String) (w : σ) (j : Nat) :
    deleteResult c metro (a :: rest) w (j + 1) =
      deleteResult c metro rest (c.DeleteByName metro a w).2 j := rfl

theorem noFailure_cons {σ : Type} (c : ImagesService σ) (metro a : String)
    (rest : List String) (w : σ) :
    NoFailure c metro (a :: rest) w ↔
      (c.DeleteByName metro a w).1 = none ∧ NoFailure c metro rest (c.DeleteByName metro a w).2 := by
  unfold NoFailure
  constructor
  · intro h
    refine ⟨by simpa [deleteResult_zero] using h 0 (by simp), fun j hj => ?_⟩
    have := h (j + 1) (by simpa using hj)
    rwa [deleteResult_succ] at this
  · rintro ⟨h0, h⟩ j hj
    cases j with
    | zero => rwa [deleteResult_zero]
    | succ j =>
      rw [deleteResult_succ]
      exact h j (by simpa using hj)

theorem firstFailureAt_zero {σ : Type} (c : ImagesService σ) (metro a : String)
    (rest : List String) (w : σ) (e : GoError) :
    FirstFailureAt c metro (a :: rest) w 0 e ↔ (c.DeleteByName metro a w).1 = some e := by
  unfold FirstFailureAt
  simp [deleteResult_zero]

theorem firstFailureAt_succ {σ : Type} (c : ImagesService σ) (metro a : String)
    (rest : List String) (w : σ) (i : Nat) (e : GoError) :
    FirstFailureAt c metro (a :: rest) w (i + 1) e ↔
      (c.DeleteByName metro a w).1 = none ∧
        FirstFailureAt c metro rest (c.DeleteByName metro a w).2 i e := by
  unfold FirstFailureAt
  constructor
  · rintro ⟨hi, hlt, hf⟩
    refine ⟨by simpa [deleteResult_zero] using hlt 0 (by simp), by simpa using hi,
      fun j hj => ?_, by rwa [deleteResult_succ] at hf⟩
    have := hlt (j + 1) (by omega)
    rwa [deleteResult_succ] at this
  · rintro ⟨h0, hi, hlt, hf⟩
    refine ⟨by simpa using hi, fun j hj => ?_, by rwa [deleteResult_succ]⟩
    cases j with
    | zero => rwa [deleteResult_zero]
    | succ j =>
      rw [deleteResult_succ]
      exact hlt j (by omega)

/-- Either no deletion fails, or there is a first one that does. -/
theorem noFailure_or_firstFailureAt {σ : Type} (c : ImagesService σ) (metro : String)
    (names : List String) (w : σ) :
    NoFailure c metro names w ∨ ∃ i e, FirstFailureAt c metro names w i e := by
  induction names generalizing w with
  | nil => exact Or.inl (fun j hj => absurd hj (by simp))
  | cons a rest ih =>
    cases h : (c.DeleteByName metro a w).1 with
    | some e => exact Or.inr ⟨0, e, (firstFailureAt_zero c metro a rest w e).mpr h⟩
    | none =>
      rcases ih (c.DeleteByName metro a w).2 with hn | ⟨i, e, hf⟩
      · exact Or.inl ((noFailure_cons c metro a rest w).mpr ⟨h, hn⟩)
      · exact Or.inr ⟨i + 1, e, (firstFailureAt_succ c metro a rest w i e).mpr ⟨h, hf⟩⟩

/-- The two cases exclude each other. -/
theorem not_noFailure_of_firstFailureAt {σ : Type} {c : ImagesService σ} {metro : String}
    {names : List String} {w : σ} {i : Nat} {e : GoError}
    (h : FirstFailureAt c metro names w i e) : ¬ NoFailure c metro names w := by
  intro hn
  have := hn i h.1
  rw [h.2.2] at this
  cases this

/-! ## Lemmas on the two loops -/

theorem sweepAll_spec {σ : Type} (c : ImagesService σ) (a : AuthConfig) (images : List Image)
    (s : RunState σ) :
    ∃ t, Run.sweepAll c a images s =
        { s with world := worldAfterDeletes c s.opts.Metro (ownedDigests a.User images) s.world,
                 trace := s.trace ++ t } ∧
      Stretch .allMode (ownedDigests a.User images) t := by
  induction images generalizing s with
  | nil => exact ⟨[], by simp [Run.sweepAll, ownedDigests, worldAfterDeletes], Stretch.nil _⟩
  | cons image images ih =>
    by_cases hp : HasPrefix image.Digest (ownerId a.User) = true
    · have hown : ownedDigests a.User (image :: images) =
          [image.Digest] ++ ownedDigests a.User images := by
        simp [ownedDigests, List.filter_cons, hp]
      cases hr : (c.DeleteByName s.opts.Metro image.Digest s.world).1 with
      | none =>
        obtain ⟨t, ht, hs⟩ := ih
          { s with world := (c.DeleteByName s.opts.Metro image.Digest s.world).2,
                   trace := s.trace ++ [Event.log .info [] ("removing " ++ image.Digest)] ++
                     [Event.deleteByName .allMode s.opts.Metro image.Digest] }
        refine ⟨[Event.log .info [] ("removing " ++ image.Digest)] ++
            [Event.deleteByName .allMode s.opts.Metro image.Digest] ++ t, ?_, ?_⟩
        · simp only [Run.sweepAll, hp, hr, hown]
          simp only [Bool.not_true, Bool.false_eq_true, if_false]
          rw [ht]
          simp [worldAfterDeletes, List.append_assoc]
        · rw [hown]
          have := ((Stretch.log Site.allMode .info [] ("removing " ++ image.Digest)).append
            (Stretch.delete Site.allMode s.opts.Metro image.Digest)).append hs
          simpa using this
      | some e =>
        obtain ⟨t, ht, hs⟩ := ih
          { s with world := (c.DeleteByName s.opts.Metro image.Digest s.world).2,
                   trace := s.trace ++ [Event.log .info [] ("removing " ++ image.Digest)] ++
                     [Event.deleteByName .allMode s.opts.Metro image.Digest] ++
                     [Event.log .error [] ("could not delete image: " ++ e.Error)] }
        refine ⟨[Event.log .info [] ("removing " ++ image.Digest)] ++
            [Event.deleteByName .allMode s.opts.Metro image.Digest] ++
            [Event.log .error [] ("could not delete image: " ++ e.Error)] ++ t, ?_, ?_⟩
        · simp only [Run.sweepAll, hp, hr, hown]
          simp only [Bool.not_true, Bool.false_eq_true, if_false]
          rw [ht]
          simp [worldAfterDeletes, List.append_assoc]
        · rw [hown]
          have := (((Stretch.log Site.allMode .info [] ("removing " ++ image.Digest)).append
            (Stretch.delete Site.allMode s.opts.Metro image.Digest)).append
            (Stretch.log Site.allMode .error [] ("could not delete image: " ++ e.Error))).append hs
          simpa using this
    · have hown : ownedDigests a.User (image :: images) = ownedDigests a.User images := by
        simp [ownedDigests, List.filter_cons, hp]
      obtain ⟨t, ht, hs⟩ := ih s
      refine ⟨t, ?_, by rwa [hown]⟩
      simp only [Bool.not_eq_true] at hp
      simp only [Run.sweepAll, hp, hown]
      simpa using ht

theorem sweepArgs_ok {σ : Type} (c : ImagesService σ) (args : List String) (s : RunState σ)
    (h : NoFailure c s.opts.Metro args s.world) :
    ∃ t, Run.sweepArgs c args s =
        .ok { s with world := worldAfterDeletes c s.opts.Metro args s.world,
                     trace := s.trace ++ t } ∧
      Stretch .explicit args t := by
  induction args generalizing s with
  | nil => exact ⟨[], by simp [Run.sweepArgs, worldAfterDeletes], Stretch.nil _⟩
  | cons arg args ih =>
    obtain ⟨h0, hrest⟩ := (noFailure_cons c s.opts.Metro arg args s.world).mp h
    obtain ⟨t, ht, hs⟩ := ih
      { s with world := (c.DeleteByName s.opts.Metro arg s.world).2,
               trace := s.trace ++ [Event.deleteByName .explicit s.opts.Metro arg] ++
                 [Event.log .info [] ("removing " ++ arg)] } hrest
    refine ⟨[Event.deleteByName .explicit s.opts.Metro arg] ++
        [Event.log .info [] ("removing " ++ arg)] ++ t, ?_, ?_⟩
    · simp only [Run.sweepArgs, h0]
      rw [ht]
      simp [worldAfterDeletes, List.append_assoc]
    · have := ((Stretch.delete Site.explicit s.opts.Metro arg).append
        (Stretch.log Site.explicit .info [] ("removing " ++ arg))).append hs
      simpa using this

theorem sweepArgs_fail {σ : Type} (c : ImagesService σ) (args : List String) (s : RunState σ)
    (i : Nat) (e : GoError) (h : FirstFailureAt c s.opts.Metro args s.world i e) :
    ∃ t w, Run.sweepArgs c args s =
        .error (errorfW "could not delete image: " e, { s with world := w, trace := s.trace ++ t }) ∧
      Stretch .explicit (args.take (i + 1)) t := by
  induction args generalizing s i with
  | nil => exact absurd h.1 (by simp)
  | cons arg args ih =>
    cases i with
    | zero =>
      have h0 := (firstFailureAt_zero c s.opts.Metro arg args s.world e).mp h
      refine ⟨[Event.deleteByName .explicit s.opts.Metro arg],
        (c.DeleteByName s.opts.Metro arg s.world).2, ?_, ?_⟩
      · simp only [Run.sweepArgs, h0]
      · simpa using Stretch.delete Site.explicit s.opts.Metro arg
    | succ i =>
      obtain ⟨h0, hrest⟩ := (firstFailureAt_succ c s.opts.Metro arg args s.world i e).mp h
      obtain ⟨t, w, ht, hs⟩ := ih
        { s with world := (c.DeleteByName s.opts.Metro arg s.world).2,
                 trace := s.trace ++ [Event.deleteByName .explicit s.opts.Metro arg] ++
                   [Event.log .info [] ("removing " ++ arg)] } i hrest
      refine ⟨[Event.deleteByName .explicit s.opts.Metro arg] ++
          [Event.log .info [] ("removing " ++ arg)] ++ t, w, ?_, ?_⟩
      · simp only [Run.sweepArgs, h0]
        rw [ht]
        simp [List.append_assoc]
      · have := ((Stretch.delete Site.explicit s.opts.Metro arg).append
          (Stretch.log Site.explicit .info [] ("removing " ++ arg))).append hs
        simpa using this

/-! ## Lemmas on `Run` before the loop over the arguments -/

/-- The provider fails: `Run` returns at line 71 after that one call. -/
theorem beforeArgs_noCredentials {σ : Type} (env : Env σ) (opts : RemoveOptions σ) (w : σ)
    (e : GoError) (hnil : opts.Auth = none)
    (herr : env.GetKraftCloudAuthConfigFromContext = .error e) :
    Run.beforeArgs env opts w =
      .error (errorfW "could not retrieve credentials: " e,
        ⟨opts, some e, w, [Event.getCredentials]⟩) := by
  simp [Run.beforeArgs, Run.credentials, hnil, herr]

theorem setupTrace_quiet {σ : Type} (env : Env σ) (opts : RemoveOptions σ) (a : AuthConfig) :
    deleteCalls (setupTrace env opts a) = [] ∧
      (∀ site, deleteCallsAt site (setupTrace env opts a) = []) ∧
      listCalls (setupTrace env opts a) = 0 ∧
      credentialCalls (setupTrace env opts a) = (if opts.Auth = none then 1 else 0) := by
  unfold setupTrace
  cases opts.Auth <;> cases opts.Client <;>
    simp [deleteCalls, deleteCallsAt, listCalls, credentialCalls]

/-- Lines 68–79 with credentials available: `Run` reaches line 81 in `setupState`,
with client `resolvedClient`. -/
theorem beforeArgs_eq {σ : Type} (env : Env σ) (opts : RemoveOptions σ) (w : σ)
    (a : AuthConfig) (hauth : resolvedAuth env opts = .ok a) :
    Run.beforeArgs env opts w =
      match Run.allMode (resolvedClient env opts a) a (setupState env opts a w) with
      | .error x => .error x
      | .ok s₂ => .ok (resolvedClient env opts a, s₂) := by
  obtain ⟨all, auth, client, metro⟩ := opts
  cases auth with
  | some a₀ =>
    simp only [resolvedAuth, Except.ok.injEq] at hauth
    subst hauth
    cases client <;>
      simp [Run.beforeArgs, Run.credentials, Run.client, resolvedClient, setupState, setupTrace]
  | none =>
    simp only [resolvedAuth] at hauth
    cases client <;>
      simp [Run.beforeArgs, Run.credentials, Run.client, resolvedClient, setupState, setupTrace,
        hauth]

/-- All mode off: the loop over the arguments starts in `setupState`. -/
theorem beforeArgs_explicitOnly {σ : Type} (env : Env σ) (opts : RemoveOptions σ) (w : σ)
    (a : AuthConfig) (hauth : resolvedAuth env opts = .ok a) (hall : opts.All = false) :
    Run.beforeArgs env opts w = .ok (resolvedClient env opts a, setupState env opts a w) := by
  rw [beforeArgs_eq env opts w a hauth]
  simp [Run.allMode, setupState, hall]

/-- All mode on and `List` fails: `Run` returns at line 84. -/
theorem beforeArgs_listFails {σ : Type} (env : Env σ) (opts : RemoveOptions σ) (w : σ)
    (a : AuthConfig) (e : GoError) (hauth : resolvedAuth env opts = .ok a)
    (hall : opts.All = true)
    (hlist : ((resolvedClient env opts a).List opts.Metro w).1 = .error e) :
    Run.beforeArgs env opts w =
      .error (errorfW "could not get list of all images: " e,
        { setupState env opts a w with
            world := ((resolvedClient env opts a).List opts.Metro w).2,
            trace := setupTrace env opts a ++ [Event.list opts.Metro] }) := by
  rw [beforeArgs_eq env opts w a hauth]
  simp [Run.allMode, setupState, hall, hlist]

/-- All mode on and `List` succeeds: the loop over the arguments starts after
the sweep over the owned digests. -/
theorem beforeArgs_listed {σ : Type} (env : Env σ) (opts : RemoveOptions σ) (w : σ)
    (a : AuthConfig) (images : List Image) (hauth : resolvedAuth env opts = .ok a)
    (hall : opts.All = true)
    (hlist : ((resolvedClient env opts a).List opts.Metro w).1 = .ok images) :
    ∃ t, Run.beforeArgs env opts w =
        .ok (resolvedClient env opts a,
          { setupState env opts a w with
              world := worldAfterDeletes (resolvedClient env opts a) opts.Metro
                (ownedDigests a.User images) ((resolvedClient env opts a).List opts.Metro w).2,
              trace := setupTrace env opts a ++ [Event.list opts.Metro] ++ t }) ∧
      Stretch .allMode (ownedDigests a.User images) t := by
  obtain ⟨t, ht, hs⟩ := sweepAll_spec (resolvedClient env opts a) a images
    { setupState env opts a w with
        world := ((resolvedClient env opts a).List opts.Metro w).2,
        trace := setupTrace env opts a ++ [Event.list opts.Metro] }
  refine ⟨t, ?_, hs⟩
  rw [beforeArgs_eq env opts w a hauth]
  simp only [Run.allMode, setupState, hall, hlist, if_true] at ht ⊢
  rw [ht]

/-! ## Lemmas on `Pre` -/

theorem pre_guard {σ : Type} (opts : RemoveOptions σ) (args : List String) :
    (!opts.All && args.length == 0) = true ↔ opts.All = false ∧ args = [] := by
  simp [List.length_eq_zero]

/-- The target check of line 48 fires. -/
theorem pre_noTarget {σ : Type} (opts : RemoveOptions σ) (flagMetro envMetro : String)
    (args : List String) (hall : opts.All = false) (hargs : args = []) :
    Pre opts flagMetro envMetro args =
      ⟨some (.errorString "either specify an image name, or use the --all flag"), opts, []⟩ := by
  have h := (pre_guard opts args).mpr ⟨hall, hargs⟩
  simp only [Pre, h, if_true]

/-- The target check of line 48 passes: the result is decided by the metro. -/
theorem pre_target {σ : Type} (opts : RemoveOptions σ) (flagMetro envMetro : String)
    (args : List String) (h : opts.All = true ∨ args ≠ []) :
    Pre opts flagMetro envMetro args =
      if (if flagMetro = "" then envMetro else flagMetro) = "" then
        ⟨some (.errorString "kraftcloud metro is unset"),
          { opts with Metro := if flagMetro = "" then envMetro else flagMetro }, []⟩
      else
        ⟨none, { opts with Metro := if flagMetro = "" then envMetro else flagMetro },
          [Event.log .debug [("metro", if flagMetro = "" then envMetro else flagMetro)] "using"]⟩ := by
  have hg : (!opts.All && args.length == 0) = false := by
    rw [← Bool.not_eq_true, pre_guard]
    rintro ⟨h1, h2⟩
    rcases h with h | h
    · rw [h1] at h; cases h
    · exact h h2
  simp only [Pre, hg, Bool.false_eq_true, if_false]
  by_cases hf : flagMetro = "" <;> by_cases he : envMetro = "" <;> simp [hf, he]

theorem pre_target_err {σ : Type} (opts : RemoveOptions σ) (flagMetro envMetro : String)
    (args : List String) (h : opts.All = true ∨ args ≠ []) :
    (Pre opts flagMetro envMetro args).err =
      if (if flagMetro = "" then envMetro else flagMetro) = "" then
        some (.errorString "kraftcloud metro is unset")
      else none := by
  rw [pre_target opts flagMetro envMetro args h]
  by_cases hm : (if flagMetro = "" then envMetro else flagMetro) = ""
  · rw [if_pos hm, if_pos hm]
  · rw [if_neg hm, if_neg hm]

theorem pre_target_metro {σ : Type} (opts : RemoveOptions σ) (flagMetro envMetro : String)
    (args : List String) (h : opts.All = true ∨ args ≠ []) :
    (Pre opts flagMetro envMetro args).opts.Metro =
      if flagMetro = "" then envMetro else flagMetro := by
  rw [pre_target opts flagMetro envMetro args h]
  by_cases hm : (if flagMetro = "" then envMetro else flagMetro) = ""
  · rw [if_pos hm]
  · rw [if_neg hm]

theorem pre_cases {σ : Type} (opts : RemoveOptions σ) (args : List String) :
    (opts.All = false ∧ args = []) ∨ (opts.All = true ∨ args ≠ []) := by
  cases hA : opts.All with
  | true => exact Or.inr (Or.inl rfl)
  | false =>
    by_cases hargs : args = []
    · exact Or.inl ⟨rfl, hargs⟩
    · exact Or.inr (Or.inr hargs)

/-! ## Lemmas on `Run` as a whole -/

/-- The loop over the arguments is reached and no deletion in it fails. -/
theorem run_args_ok {σ : Type} (env : Env σ) (opts : RemoveOptions σ) (args : List String)
    (w : σ) (c : ImagesService σ) (s : RunState σ)
    (hb : Run.beforeArgs env opts w = .ok (c, s))
    (hn : NoFailure c s.opts.Metro args s.world) :
    ∃ t, (Run env opts args w).state.trace = s.trace ++ t ∧
      (Run env opts args w).err = s.err ∧ Stretch .explicit args t := by
  obtain ⟨t, ht, hs⟩ := sweepArgs_ok c args s hn
  exact ⟨t, by simp [Run, hb, ht], by simp [Run, hb, ht], hs⟩

/-- The loop over the arguments is reached and deletion `i` is the first to fail. -/
theorem run_args_fail {σ : Type} (env : Env σ) (opts : RemoveOptions σ) (args : List String)
    (w : σ) (c : ImagesService σ) (s : RunState σ) (i : Nat) (e : GoError)
    (hb : Run.beforeArgs env opts w = .ok (c, s))
    (hf : FirstFailureAt c s.opts.Metro args s.world i e) :
    ∃ t, (Run env opts args w).state.trace = s.trace ++ t ∧
      (Run env opts args w).err = some (errorfW "could not delete image: " e) ∧
      Stretch .explicit (args.take (i + 1)) t := by
  obtain ⟨t, w₁, ht, hs⟩ := sweepArgs_fail c args s i e hf
  exact ⟨t, by simp [Run, hb, ht], by simp [Run, hb, ht], hs⟩

/-- Whatever happens in the loop over the arguments, it adds to the trace only
calls of `DeleteByName` made at its own site. -/
theorem run_args_any {σ : Type} (env : Env σ) (opts : RemoveOptions σ) (args : List String)
    (w : σ) (c : ImagesService σ) (s : RunState σ)
    (hb : Run.beforeArgs env opts w = .ok (c, s)) :
    ∃ t names, (Run env opts args w).state.trace = s.trace ++ t ∧ Stretch .explicit names t := by
  rcases noFailure_or_firstFailureAt c s.opts.Metro args s.world with hn | ⟨i, e, hf⟩
  · obtain ⟨t, ht, -, hs⟩ := run_args_ok env opts args w c s hb hn
    exact ⟨t, _, ht, hs⟩
  · obtain ⟨t, ht, -, hs⟩ := run_args_fail env opts args w c s i e hb hf
    exact ⟨t, _, ht, hs⟩

/-- All mode on and `List` succeeds: the calls made at line 94 are the owned
digests, whatever the deletions return and whatever the arguments are. -/
theorem run_allMode_calls {σ : Type} (env : Env σ) (opts : RemoveOptions σ)
    (args : List String) (w : σ) (a : AuthConfig) (images : List Image)
    (hauth : resolvedAuth env opts = .ok a) (hall : opts.All = true)
    (hlist : ((resolvedClient env opts a).List opts.Metro w).1 = .ok images) :
    deleteCallsAt .allMode (Run env opts args w).state.trace = ownedDigests a.User images := by
  obtain ⟨t, hb, hs⟩ := beforeArgs_listed env opts w a images hauth hall hlist
  obtain ⟨u, names, hu, hus⟩ := run_args_any env opts args w _ _ hb
  obtain ⟨-, hq, -, -⟩ := setupTrace_quiet env opts a
  rw [hu]
  simp only [deleteCallsAt_append, hq, hs.atSite, hus.elsewhere Site.allMode (by decide)]
  simp [deleteCallsAt]

/-- The shape of a run with all mode off and credentials available. -/
theorem run_explicitOnly {σ : Type} (env : Env σ) (opts : RemoveOptions σ)
    (args : List String) (w : σ) (a : AuthConfig)
    (hauth : resolvedAuth env opts = .ok a) (hall : opts.All = false) :
    (NoFailure (resolvedClient env opts a) opts.Metro args w →
      ∃ u, (Run env opts args w).state.trace = setupTrace env opts a ++ u ∧
        (Run env opts args w).err = none ∧ Stretch .explicit args u) ∧
    (∀ i e, FirstFailureAt (resolvedClient env opts a) opts.Metro args w i e →
      ∃ u, (Run env opts args w).state.trace = setupTrace env opts a ++ u ∧
        (Run env opts args w).err = some (errorfW "could not delete image: " e) ∧
        Stretch .explicit (args.take (i + 1)) u) := by
  have hb := beforeArgs_explicitOnly env opts w a hauth hall
  exact ⟨fun hn => run_args_ok env opts args w _ _ hb hn,
    fun i e hf => run_args_fail env opts args w _ _ i e hb hf⟩

/-- The shape of a run with all mode on, credentials available and `List`
succeeding. -/
theorem run_listed {σ : Type} (env : Env σ) (opts : RemoveOptions σ)
    (args : List String) (w : σ) (a : AuthConfig) (images : List Image)
    (hauth : resolvedAuth env opts = .ok a) (hall : opts.All = true)
    (hlist : ((resolvedClient env opts a).List opts.Metro w).1 = .ok images) :
    ∃ t, Stretch .allMode (ownedDigests a.User images) t ∧
    (NoFailure (resolvedClient env opts a) opts.Metro args
        (worldAfterDeletes (resolvedClient env opts a) opts.Metro (ownedDigests a.User images)
          ((resolvedClient env opts a).List opts.Metro w).2) →
      ∃ u, (Run env opts args w).state.trace =
          setupTrace env opts a ++ [Event.list opts.Metro] ++ t ++ u ∧
        (Run env opts args w).err = none ∧ Stretch .explicit args u) ∧
    (∀ i e, FirstFailureAt (resolvedClient env opts a) opts.Metro args
        (worldAfterDeletes (resolvedClient env opts a) opts.Metro (ownedDigests a.User images)
          ((resolvedClient env opts a).List opts.Metro w).2) i e →
      ∃ u, (Run env opts args w).state.trace =
          setupTrace env opts a ++ [Event.list opts.Metro] ++ t ++ u ∧
        (Run env opts args w).err = some (errorfW "could not delete image: " e) ∧
        Stretch .explicit (args.take (i + 1)) u) := by
  obtain ⟨t, hb, hs⟩ := beforeArgs_listed env opts w a images hauth hall hlist
  exact ⟨t, hs, fun hn => run_args_ok env opts args w _ _ hb hn,
    fun i e hf => run_args_fail env opts args w _ _ i e hb hf⟩

/-- The run with all mode on and `List` failing. -/
theorem run_listFails {σ : Type} (env : Env σ) (opts : RemoveOptions σ)
    (args : List String) (w : σ) (a : AuthConfig) (e : GoError)
    (hauth : resolvedAuth env opts = .ok a) (hall : opts.All = true)
    (hlist : ((resolvedClient env opts a).List opts.Metro w).1 = .error e) :
    (Run env opts args w).err = some (errorfW "could not get list of all images: " e) ∧
      (Run env opts args w).state.trace = setupTrace env opts a ++ [Event.list opts.Metro] := by
  simp [Run, beforeArgs_listFails env opts w a e hauth hall hlist]

/-- The run in which the credential provider fails. -/
theorem run_noCredentials {σ : Type} (env : Env σ) (opts : RemoveOptions σ)
    (args : List String) (w : σ) (e : GoError) (hnil : opts.Auth = none)
    (herr : env.GetKraftCloudAuthConfigFromContext = .error e) :
    (Run env opts args w).err = some (errorfW "could not retrieve credentials: " e) ∧
      (Run env opts args w).state.trace = [Event.getCredentials] ∧
      (Run env opts args w).state.world = w := by
  simp [Run, beforeArgs_noCredentials env opts w e hnil herr]

/-- With credentials available, the provider is called once when none were
supplied and not at all otherwise; `List` is called once in all mode and not at
all otherwise. -/
theorem run_counts {σ : Type} (env : Env σ) (opts : RemoveOptions σ)
    (args : List String) (w : σ) (a : AuthConfig) (hauth : resolvedAuth env opts = .ok a) :
    credentialCalls (Run env opts args w).state.trace = (if opts.Auth = none then 1 else 0) ∧
      listCalls (Run env opts args w).state.trace = (if opts.All = true then 1 else 0) := by
  obtain ⟨-, -, hl, hc⟩ := setupTrace_quiet env opts a
  cases hall : opts.All with
  | false =>
    obtain ⟨hok, hfail⟩ := run_explicitOnly env opts args w a hauth hall
    rcases noFailure_or_firstFailureAt (resolvedClient env opts a) opts.Metro args w with
      hn | ⟨i, e, hf⟩
    · obtain ⟨u, hu, -, hs⟩ := hok hn
      simp [hu, hl, hc, hs.lists, hs.creds]
    · obtain ⟨u, hu, -, hs⟩ := hfail i e hf
      simp [hu, hl, hc, hs.lists, hs.creds]
  | true =>
    cases hlist : ((resolvedClient env opts a).List opts.Metro w).1 with
    | error e =>
      obtain ⟨-, ht⟩ := run_listFails env opts args w a e hauth hall hlist
      simp [ht, hl, hc, listCalls_list, credentialCalls_list]
    | ok images =>
      obtain ⟨t, hts, hok, hfail⟩ := run_listed env opts args w a images hauth hall hlist
      rcases noFailure_or_firstFailureAt (resolvedClient env opts a) opts.Metro args
        (worldAfterDeletes (resolvedClient env opts a) opts.Metro (ownedDigests a.User images)
          ((resolvedClient env opts a).List opts.Metro w).2) with hn | ⟨i, e, hf⟩
      · obtain ⟨u, hu, -, hs⟩ := hok hn
        simp only [hu, listCalls_append, credentialCalls_append, hl, hc, hs.lists, hs.creds,
          hts.lists, hts.creds, listCalls_list, credentialCalls_list, add_zero, zero_add, if_true, and_self]
      · obtain ⟨u, hu, -, hs⟩ := hfail i e hf
        simp only [hu, listCalls_append, credentialCalls_append, hl, hc, hs.lists, hs.creds,
          hts.lists, hts.creds, listCalls_list, credentialCalls_list, add_zero, zero_add, if_true, and_self]

/-! ## Lemmas on the owner id -/

theorem trimPrefix_append (pre rest : String) : TrimPrefix (pre ++ rest) pre = rest := by
  have h : HasPrefix (pre ++ rest) pre = true := by
    rw [hasPrefix_iff, String.data_append]; exact List.prefix_append _ _
  simp [TrimPrefix, h, String.data_append]

theorem trimSuffix_append (rest suf : String) : TrimSuffix (rest ++ suf) suf = rest := by
  have h : HasSuffix (rest ++ suf) suf = true := by
    simp [HasSuffix, String.data_append]
  simp [TrimSuffix, h, String.data_append]

theorem ownerId_robot (id : String) : ownerId ("robot$" ++ id ++ ".users.kraftcloud") = id := by
  unfold ownerId
  rw [String.append_assoc, trimPrefix_append, trimSuffix_append]

theorem ownedDigests_of_empty (user : String) (images : List Image) (h : ownerId user = "") :
    ownedDigests user images = images.map Image.Digest := by
  unfold ownedDigests
  rw [h, List.filter_eq_self]
  intro d _
  exact hasPrefix_empty d

theorem deleteCalls_list (metro : String) : deleteCalls [Event.list metro] = [] := rfl

theorem deleteCallsAt_list (site : Site) (metro : String) :
    deleteCallsAt site [Event.list metro] = [] := rfl

/-- The calls of `DeleteByName` in a trace made of the setup, the `List` call, an
all-mode stretch and an explicit stretch. -/
theorem calls_of_listed {σ : Type} (env : Env σ) (opts : RemoveOptions σ) (a : AuthConfig)
    (metro : String) (owned names : List String) (t u : List Event)
    (ht : Stretch .allMode owned t) (hu : Stretch .explicit names u) :
    deleteCalls (setupTrace env opts a ++ [Event.list metro] ++ t ++ u) = owned ++ names ∧
      deleteCallsAt .explicit (setupTrace env opts a ++ [Event.list metro] ++ t ++ u) = names := by
  obtain ⟨hq, hqs, -, -⟩ := setupTrace_quiet env opts a
  constructor
  · simp only [deleteCalls_append, hq, deleteCalls_list, ht.calls, hu.calls, List.nil_append]
  · simp only [deleteCallsAt_append, hqs, deleteCallsAt_list,
      ht.elsewhere Site.explicit (by decide), hu.atSite, List.nil_append]

/-- The calls of `DeleteByName` in a trace made of the setup and an explicit
stretch. -/
theorem calls_of_explicitOnly {σ : Type} (env : Env σ) (opts : RemoveOptions σ) (a : AuthConfig)
    (names : List String) (u : List Event) (hu : Stretch .explicit names u) :
    deleteCalls (setupTrace env opts a ++ u) = names ∧
      deleteCallsAt .explicit (setupTrace env opts a ++ u) = names := by
  obtain ⟨hq, hqs, -, -⟩ := setupTrace_quiet env opts a
  constructor
  · simp only [deleteCalls_append, hq, hu.calls, List.nil_append]
  · simp only [deleteCallsAt_append, hqs, hu.atSite, List.nil_append]

/-! ## The claims on `Pre` -/

/-- C1, as stated, fails: with all mode off, no positional argument and both metro
values empty, `Pre` returns the error of line 49, not "kraftcloud metro is unset". -/
theorem C1_counterexample :
    (Pre (σ := Unit) ⟨false, none, none, ""⟩ "" "" []).err =
        some (.errorString "either specify an image name, or use the --all flag") ∧
      (Pre (σ := Unit) ⟨false, none, none, ""⟩ "" "" []).err ≠
        some (.errorString "kraftcloud metro is unset") := by
  decide

/-- C1, amended. When both the metro flag value and the environment value are the
empty string, `Pre` always fails: with the error "kraftcloud metro is unset" when
all mode is on or a positional argument is given, and with the error of the target
check, which comes first, when all mode is off and no positional argument is given. -/
theorem C1_pre_empty_metro_fails {σ : Type} (opts : RemoveOptions σ) (args : List String) :
    (Pre opts "" "" args).err =
      if opts.All = false ∧ args = [] then
        some (.errorString "either specify an image name, or use the --all flag")
      else
        some (.errorString "kraftcloud metro is unset") := by
  rcases pre_cases opts args with h | h
  · rw [if_pos h, pre_noTarget opts "" "" args h.1 h.2]
  · have hn : ¬ (opts.All = false ∧ args = []) := by
      rintro ⟨h1, h2⟩
      rcases h with h | h
      · rw [h1] at h; cases h
      · exact h h2
    rw [if_neg hn, pre_target_err opts "" "" args h]
    rfl

/-- C2. With all mode off and no positional argument, `Pre` fails with the error
whose message is "either specify an image name, or use the --all flag", whatever
the metro values are; with all mode on or a positional argument given, `Pre` never
returns an error with that message. -/
theorem C2_pre_target_check {σ : Type} (opts : RemoveOptions σ) (flagMetro envMetro : String)
    (args : List String) :
    (opts.All = false → args = [] →
      (Pre opts flagMetro envMetro args).err =
        some (.errorString "either specify an image name, or use the --all flag")) ∧
    (opts.All = true ∨ args ≠ [] →
      ∀ e, (Pre opts flagMetro envMetro args).err = some e →
        e.Error ≠ "either specify an image name, or use the --all flag") := by
  refine ⟨fun hall hargs => by rw [pre_noTarget opts flagMetro envMetro args hall hargs], ?_⟩
  intro h e he
  rw [pre_target_err opts flagMetro envMetro args h] at he
  by_cases hm : (if flagMetro = "" then envMetro else flagMetro) = ""
  · rw [if_pos hm, Option.some.injEq] at he
    subst he
    decide
  · rw [if_neg hm] at he
    cases he

/-- C2 at all mode off with no argument and metro flag `fra0`, and at all mode on
with both metro values empty. -/
theorem C2_pre_target_check_witness :
    (Pre (σ := Unit) ⟨false, none, none, ""⟩ "fra0" "was1" []).err =
        some (.errorString "either specify an image name, or use the --all flag") ∧
      ∀ e, (Pre (σ := Unit) ⟨true, none, none, ""⟩ "" "" []).err = some e →
        e.Error ≠ "either specify an image name, or use the --all flag" :=
  ⟨(C2_pre_target_check (σ := Unit) ⟨false, none, none, ""⟩ "fra0" "was1" []).1 rfl rfl,
    (C2_pre_target_check (σ := Unit) ⟨true, none, none, ""⟩ "" "" []).2 (Or.inl rfl)⟩

/-- C3. Whenever `Pre` succeeds, the Metro it stored is the flag value when that is
non-empty and the environment value otherwise, and it is non-empty. With all mode on
or a positional argument given, flag `fra0` with environment `was1` succeeds with
metro `fra0`, and an empty flag with environment `was1` succeeds with metro `was1`. -/
theorem C3_pre_resolves_metro {σ : Type} (opts : RemoveOptions σ) (flagMetro envMetro : String)
    (args : List String) :
    ((Pre opts flagMetro envMetro args).err = none →
      (Pre opts flagMetro envMetro args).opts.Metro =
          (if flagMetro ≠ "" then flagMetro else envMetro) ∧
        (Pre opts flagMetro envMetro args).opts.Metro ≠ "") ∧
    (opts.All = true ∨ args ≠ [] →
      (Pre opts "fra0" "was1" args).err = none ∧
        (Pre opts "fra0" "was1" args).opts.Metro = "fra0" ∧
        (Pre opts "" "was1" args).err = none ∧
        (Pre opts "" "was1" args).opts.Metro = "was1") := by
  constructor
  · intro h
    rcases pre_cases opts args with ⟨hall, hargs⟩ | ht
    · rw [pre_noTarget opts flagMetro envMetro args hall hargs] at h
      cases h
    · rw [pre_target_err opts flagMetro envMetro args ht] at h
      rw [pre_target_metro opts flagMetro envMetro args ht]
      by_cases hm : (if flagMetro = "" then envMetro else flagMetro) = ""
      · rw [if_pos hm] at h
        cases h
      · refine ⟨?_, hm⟩
        by_cases hf : flagMetro = "" <;> simp [hf]
  · intro ht
    rw [pre_target_err opts "fra0" "was1" args ht, pre_target_metro opts "fra0" "was1" args ht,
      pre_target_err opts "" "was1" args ht, pre_target_metro opts "" "was1" args ht]
    decide

/-- C3 at all mode on, no argument, flag `fra0` and environment `was1`. -/
theorem C3_pre_resolves_metro_witness :
    (Pre (σ := Unit) ⟨true, none, none, ""⟩ "fra0" "was1" []).err = none ∧
      (Pre (σ := Unit) ⟨true, none, none, ""⟩ "fra0" "was1" []).opts.Metro = "fra0" ∧
      (Pre (σ := Unit) ⟨true, none, none, ""⟩ "" "was1" []).opts.Metro = "was1" :=
  ⟨rfl,
    ((C3_pre_resolves_metro (σ := Unit) ⟨true, none, none, ""⟩ "fra0" "was1" []).1 rfl).1,
    ((C3_pre_resolves_metro (σ := Unit) ⟨true, none, none, ""⟩ "" "was1" []).1 rfl).1⟩

/-! ## The claims on `Run` -/

/-- C4. In all mode with credentials available and `List` succeeding, the names passed
to `DeleteByName` by the all-mode sweep are exactly the listed digests, in listing
order, that have as prefix the owner id obtained from the user by stripping a leading
`robot$` and then a trailing `.users.kraftcloud`; that test is the prefix relation
on the characters; the owner id of `robot$<id>.users.kraftcloud` is `<id>`; and for
user `robot$abc123.users.kraftcloud` with digests `abc123def`, `xyz999`, `abc123`
the owner id is `abc123` and the deletes issued are `abc123def`, `abc123`. -/
theorem C4_allMode_deletes_owned_digests {σ : Type} (env : Env σ) (opts : RemoveOptions σ)
    (args : List String) (w : σ) (a : AuthConfig) (images : List Image)
    (hall : opts.All = true) (hauth : resolvedAuth env opts = .ok a)
    (hlist : ((resolvedClient env opts a).List opts.Metro w).1 = .ok images) :
    deleteCallsAt .allMode (Run env opts args w).state.trace =
        (images.map Image.Digest).filter
          (fun d => HasPrefix d (TrimSuffix (TrimPrefix a.User "robot$") ".users.kraftcloud")) ∧
      (∀ d : String, HasPrefix d (ownerId a.User) = true ↔ (ownerId a.User).data <+: d.data) ∧
      (∀ id : String, ownerId ("robot$" ++ id ++ ".users.kraftcloud") = id) ∧
      (a.User = "robot$abc123.users.kraftcloud" →
        images.map Image.Digest = ["abc123def", "xyz999", "abc123"] →
        ownerId a.User = "abc123" ∧
          deleteCallsAt .allMode (Run env opts args w).state.trace = ["abc123def", "abc123"]) := by
  have h := run_allMode_calls env opts args w a images hauth hall hlist
  refine ⟨h, fun d => hasPrefix_iff d _, ownerId_robot, fun hu hd => ?_⟩
  rw [h, ownedDigests, hd, hu]
  decide

/-- C4 on the worked inputs: user `robot$abc123.users.kraftcloud`, listing
`abc123def`, `xyz999`, `abc123`. -/
theorem C4_allMode_deletes_owned_digests_witness :
    ownerId demoAuth.User = "abc123" ∧
      deleteCallsAt .allMode
          (Run (demoEnv (demoClient ["abc123def", "xyz999", "abc123"] [])) (demoOpts true) []
            []).state.trace =
        ["abc123def", "abc123"] :=
  (C4_allMode_deletes_owned_digests (demoEnv (demoClient ["abc123def", "xyz999", "abc123"] []))
    (demoOpts true) [] [] demoAuth [⟨"abc123def"⟩, ⟨"xyz999"⟩, ⟨"abc123"⟩] rfl rfl rfl).2.2.2
    rfl rfl

/-- C5. In all mode with credentials available and `List` succeeding, whatever the
calls of `DeleteByName` return, the all-mode sweep calls it on every selected digest,
in order and as many times as the digest is selected; `Run` returns nil when there is
no positional argument, and when no deletion of a positional argument fails; and an
error returned by `Run` is always the wrapped error of the first failing positional
argument, never one of the all-mode sweep. -/
theorem C5_allMode_failures_are_not_fatal {σ : Type} (env : Env σ) (opts : RemoveOptions σ)
    (args : List String) (w : σ) (a : AuthConfig) (images : List Image)
    (hall : opts.All = true) (hauth : resolvedAuth env opts = .ok a)
    (hlist : ((resolvedClient env opts a).List opts.Metro w).1 = .ok images) :
    deleteCallsAt .allMode (Run env opts args w).state.trace = ownedDigests a.User images ∧
      (∀ d, (deleteCallsAt .allMode (Run env opts args w).state.trace).count d =
        (ownedDigests a.User images).count d) ∧
      (args = [] → (Run env opts args w).err = none) ∧
      (NoFailure (resolvedClient env opts a) opts.Metro args
          (worldAfterDeletes (resolvedClient env opts a) opts.Metro (ownedDigests a.User images)
            ((resolvedClient env opts a).List opts.Metro w).2) →
        (Run env opts args w).err = none) ∧
      (∀ e, (Run env opts args w).err = some e →
        ∃ i e₀, FirstFailureAt (resolvedClient env opts a) opts.Metro args
            (worldAfterDeletes (resolvedClient env opts a) opts.Metro
              (ownedDigests a.User images) ((resolvedClient env opts a).List opts.Metro w).2)
            i e₀ ∧
          e = errorfW "could not delete image: " e₀) := by
  have h := run_allMode_calls env opts args w a images hauth hall hlist
  obtain ⟨t, -, hok, hfail⟩ := run_listed env opts args w a images hauth hall hlist
  have hnil : ∀ hn : NoFailure (resolvedClient env opts a) opts.Metro args
      (worldAfterDeletes (resolvedClient env opts a) opts.Metro (ownedDigests a.User images)
        ((resolvedClient env opts a).List opts.Metro w).2), (Run env opts args w).err = none := by
    intro hn
    obtain ⟨u, -, he, -⟩ := hok hn
    exact he
  refine ⟨h, fun d => by rw [h], fun hargs => hnil ?_, hnil, fun e he => ?_⟩
  · subst hargs
    exact fun j hj => absurd hj (by simp)
  · rcases noFailure_or_firstFailureAt (resolvedClient env opts a) opts.Metro args
      (worldAfterDeletes (resolvedClient env opts a) opts.Metro (ownedDigests a.User images)
        ((resolvedClient env opts a).List opts.Metro w).2) with hn | ⟨i, e₀, hf⟩
    · rw [hnil hn] at he
      cases he
    · obtain ⟨u, -, he₀, -⟩ := hfail i e₀ hf
      rw [he₀, Option.some.injEq] at he
      exact ⟨i, e₀, hf, he.symm⟩

/-- C5 on the worked inputs: of the three selected digests `abc123def`, `abc123`,
`abc123aa` the deletion of `abc123` fails; all three are attempted and `Run`
returns nil. -/
theorem C5_allMode_failures_are_not_fatal_witness :
    deleteResult (demoClient ["abc123def", "xyz999", "abc123", "abc123aa"] ["abc123"]) "fra0"
        ["abc123def", "abc123", "abc123aa"] [] 1 = some (.errorString "image not found") ∧
      deleteCallsAt .allMode
          (Run (demoEnv (demoClient ["abc123def", "xyz999", "abc123", "abc123aa"] ["abc123"]))
            (demoOpts true) [] []).state.trace =
        ["abc123def", "abc123", "abc123aa"] ∧
      (Run (demoEnv (demoClient ["abc123def", "xyz999", "abc123", "abc123aa"] ["abc123"]))
        (demoOpts true) [] []).err = none :=
  ⟨by decide,
    (C5_allMode_failures_are_not_fatal
      (demoEnv (demoClient ["abc123def", "xyz999", "abc123", "abc123aa"] ["abc123"]))
      (demoOpts true) [] [] demoAuth
      [⟨"abc123def"⟩, ⟨"xyz999"⟩, ⟨"abc123"⟩, ⟨"abc123aa"⟩] rfl rfl rfl).1.trans (by decide),
    (C5_allMode_failures_are_not_fatal
      (demoEnv (demoClient ["abc123def", "xyz999", "abc123", "abc123aa"] ["abc123"]))
      (demoOpts true) [] [] demoAuth
      [⟨"abc123def"⟩, ⟨"xyz999"⟩, ⟨"abc123"⟩, ⟨"abc123aa"⟩] rfl rfl rfl).2.2.1 rfl⟩

/-- C6. With credentials available, if `i` is the first index of the positional
arguments whose `DeleteByName` call fails, the calls made by the loop over the
arguments are exactly `args[0]`, …, `args[i]`, in order, and `Run` returns the
underlying error wrapped with the message prefix "could not delete image: ". The loop
starts from the given world when all mode is off and from the world the all-mode
sweep left when all mode is on and `List` succeeded. -/
theorem C6_explicit_first_failure_aborts {σ : Type} (env : Env σ) (opts : RemoveOptions σ)
    (args : List String) (w : σ) (a : AuthConfig) (i : Nat) (e : GoError)
    (hauth : resolvedAuth env opts = .ok a) :
    (opts.All = false →
      FirstFailureAt (resolvedClient env opts a) opts.Metro args w i e →
      deleteCallsAt .explicit (Run env opts args w).state.trace = args.take (i + 1) ∧
        deleteCalls (Run env opts args w).state.trace = args.take (i + 1) ∧
        (deleteCalls (Run env opts args w).state.trace).length = i + 1 ∧
        (Run env opts args w).err = some (errorfW "could not delete image: " e)) ∧
    (opts.All = true → ∀ images,
      ((resolvedClient env opts a).List opts.Metro w).1 = .ok images →
      FirstFailureAt (resolvedClient env opts a) opts.Metro args
        (worldAfterDeletes (resolvedClient env opts a) opts.Metro (ownedDigests a.User images)
          ((resolvedClient env opts a).List opts.Metro w).2) i e →
      deleteCallsAt .explicit (Run env opts args w).state.trace = args.take (i + 1) ∧
        (deleteCallsAt .explicit (Run env opts args w).state.trace).length = i + 1 ∧
        (Run env opts args w).err = some (errorfW "could not delete image: " e)) ∧
    (errorfW "could not delete image: " e).Error = "could not delete image: " ++ e.Error ∧
    (errorfW "could not delete image: " e).Unwrap = some e := by
  refine ⟨fun hall hf => ?_, fun hall images hlist hf => ?_, rfl, rfl⟩
  · obtain ⟨u, hu, he, hs⟩ := (run_explicitOnly env opts args w a hauth hall).2 i e hf
    obtain ⟨h1, h2⟩ := calls_of_explicitOnly env opts a _ u hs
    rw [hu, h1, h2]
    exact ⟨rfl, rfl, by rw [List.length_take]; have := hf.1; omega, he⟩
  · obtain ⟨t, hts, -, hfail⟩ := run_listed env opts args w a images hauth hall hlist
    obtain ⟨u, hu, he, hs⟩ := hfail i e hf
    obtain ⟨-, h2⟩ := calls_of_listed env opts a opts.Metro _ _ t u hts hs
    rw [hu, h2]
    exact ⟨rfl, by rw [List.length_take]; have := hf.1; omega, he⟩

/-- C6 on the worked inputs: arguments `img-a`, `img-b` with the deletion of `img-a`
failing; `img-b` is never attempted. -/
theorem C6_explicit_first_failure_aborts_witness :
    FirstFailureAt (demoClient [] ["img-a"]) "fra0" ["img-a", "img-b"] [] 0
        (.errorString "image not found") ∧
      deleteCalls (Run (demoEnv (demoClient [] ["img-a"])) (demoOpts false) ["img-a", "img-b"]
        []).state.trace = ["img-a"] ∧
      (Run (demoEnv (demoClient [] ["img-a"])) (demoOpts false) ["img-a", "img-b"] []).err =
        some (.wrapError "could not delete image: image not found"
          (.errorString "image not found")) :=
  ⟨by decide,
    ((C6_explicit_first_failure_aborts (demoEnv (demoClient [] ["img-a"])) (demoOpts false)
      ["img-a", "img-b"] [] demoAuth 0 (.errorString "image not found") rfl).1 rfl
      (by decide)).2.1,
    ((C6_explicit_first_failure_aborts (demoEnv (demoClient [] ["img-a"])) (demoOpts false)
      ["img-a", "img-b"] [] demoAuth 0 (.errorString "image not found") rfl).1 rfl
      (by decide)).2.2.2⟩

/-- C7. In all mode with credentials available, when the `List` call fails `Run`
returns the listing error wrapped with the message prefix "could not get list of all
images: ", and `DeleteByName` is not called at all, whatever positional arguments
were given. -/
theorem C7_list_failure_is_fatal {σ : Type} (env : Env σ) (opts : RemoveOptions σ)
    (args : List String) (w : σ) (a : AuthConfig) (e : GoError)
    (hall : opts.All = true) (hauth : resolvedAuth env opts = .ok a)
    (hlist : ((resolvedClient env opts a).List opts.Metro w).1 = .error e) :
    (Run env opts args w).err = some (errorfW "could not get list of all images: " e) ∧
      (errorfW "could not get list of all images: " e).Error =
        "could not get list of all images: " ++ e.Error ∧
      (errorfW "could not get list of all images: " e).Unwrap = some e ∧
      deleteCalls (Run env opts args w).state.trace = [] ∧
      listCalls (Run env opts args w).state.trace = 1 := by
  obtain ⟨he, ht⟩ := run_listFails env opts args w a e hauth hall hlist
  obtain ⟨hq, -, hl, -⟩ := setupTrace_quiet env opts a
  refine ⟨he, rfl, rfl, ?_, ?_⟩
  · rw [ht, deleteCalls_append, hq, deleteCalls_list]; rfl
  · rw [ht, listCalls_append, hl, listCalls_list]

/-- C7 on the worked inputs: a service whose `List` fails, with arguments `img-a`,
`img-b` also given. -/
theorem C7_list_failure_is_fatal_witness :
    (Run (demoEnv downClient) (demoOpts true) ["img-a", "img-b"] []).err =
        some (.wrapError "could not get list of all images: service unavailable"
          (.errorString "service unavailable")) ∧
      deleteCalls (Run (demoEnv downClient) (demoOpts true) ["img-a", "img-b"] []).state.trace =
        [] :=
  ⟨(C7_list_failure_is_fatal (demoEnv downClient) (demoOpts true) ["img-a", "img-b"] []
      demoAuth (.errorString "service unavailable") rfl rfl rfl).1,
    (C7_list_failure_is_fatal (demoEnv downClient) (demoOpts true) ["img-a", "img-b"] []
      demoAuth (.errorString "service unavailable") rfl rfl rfl).2.2.2.1⟩

/-- C8. With all mode on, credentials available and `List` succeeding, `List` is
called once and the full sequence of `DeleteByName` calls is the owned digests of
the listing followed by the positional arguments up to and including the first
whose deletion fails, or by all of them when none fails. With all mode off `List`
is never called, and with credentials available the sequence is the positional
arguments up to and including the first whose deletion fails, or all of them. One
of the two cases, no failure or a first failure, always holds. -/
theorem C8_both_sweeps_in_order {σ : Type} (env : Env σ) (opts : RemoveOptions σ)
    (args : List String) (w : σ) :
    (∀ a, resolvedAuth env opts = .ok a → opts.All = true → ∀ images,
      ((resolvedClient env opts a).List opts.Metro w).1 = .ok images →
      listCalls (Run env opts args w).state.trace = 1 ∧
      (NoFailure (resolvedClient env opts a) opts.Metro args
          (worldAfterDeletes (resolvedClient env opts a) opts.Metro (ownedDigests a.User images)
            ((resolvedClient env opts a).List opts.Metro w).2) →
        deleteCalls (Run env opts args w).state.trace = ownedDigests a.User images ++ args) ∧
      (∀ i e, FirstFailureAt (resolvedClient env opts a) opts.Metro args
          (worldAfterDeletes (resolvedClient env opts a) opts.Metro (ownedDigests a.User images)
            ((resolvedClient env opts a).List opts.Metro w).2) i e →
        deleteCalls (Run env opts args w).state.trace =
          ownedDigests a.User images ++ args.take (i + 1))) ∧
    (opts.All = false → listCalls (Run env opts args w).state.trace = 0) ∧
    (∀ a, resolvedAuth env opts = .ok a → opts.All = false →
      (NoFailure (resolvedClient env opts a) opts.Metro args w →
        deleteCalls (Run env opts args w).state.trace = args) ∧
      (∀ i e, FirstFailureAt (resolvedClient env opts a) opts.Metro args w i e →
        deleteCalls (Run env opts args w).state.trace = args.take (i + 1))) ∧
    (∀ (c : ImagesService σ) (w₀ : σ),
      NoFailure c opts.Metro args w₀ ∨ ∃ i e, FirstFailureAt c opts.Metro args w₀ i e) := by
  refine ⟨fun a hauth hall images hlist => ?_, fun hall => ?_, fun a hauth hall => ?_,
    fun c w₀ => noFailure_or_firstFailureAt c opts.Metro args w₀⟩
  · obtain ⟨t, hts, hok, hfail⟩ := run_listed env opts args w a images hauth hall hlist
    refine ⟨?_, fun hn => ?_, fun i e hf => ?_⟩
    · rw [(run_counts env opts args w a hauth).2, if_pos hall]
    · obtain ⟨u, hu, -, hs⟩ := hok hn
      rw [hu, (calls_of_listed env opts a opts.Metro _ _ t u hts hs).1]
    · obtain ⟨u, hu, -, hs⟩ := hfail i e hf
      rw [hu, (calls_of_listed env opts a opts.Metro _ _ t u hts hs).1]
  · cases hauth : resolvedAuth env opts with
    | ok a =>
      rw [(run_counts env opts args w a hauth).2, hall]
      rfl
    | error e =>
      have hnil : opts.Auth = none := by
        cases hA : opts.Auth with
        | none => rfl
        | some a₀ => simp [resolvedAuth, hA] at hauth
      have herr : env.GetKraftCloudAuthConfigFromContext = .error e := by
        simpa [resolvedAuth, hnil] using hauth
      rw [(run_noCredentials env opts args w e hnil herr).2.1]
      rfl
  · obtain ⟨hok, hfail⟩ := run_explicitOnly env opts args w a hauth hall
    refine ⟨fun hn => ?_, fun i e hf => ?_⟩
    · obtain ⟨u, hu, -, hs⟩ := hok hn
      rw [hu, (calls_of_explicitOnly env opts a _ u hs).1]
    · obtain ⟨u, hu, -, hs⟩ := hfail i e hf
      rw [hu, (calls_of_explicitOnly env opts a _ u hs).1]

/-- C8 on the worked inputs: all mode on, listing `abc123def`, `xyz999`, `abc123`,
arguments `img-a`, `img-b`, `img-c` with the deletion of `img-b` failing; and the
same arguments with all mode off. -/
theorem C8_both_sweeps_in_order_witness :
    deleteCalls (Run (demoEnv (demoClient ["abc123def", "xyz999", "abc123"] ["img-b"]))
        (demoOpts true) ["img-a", "img-b", "img-c"] []).state.trace =
        ["abc123def", "abc123", "img-a", "img-b"] ∧
      listCalls (Run (demoEnv (demoClient ["abc123def", "xyz999", "abc123"] ["img-b"]))
        (demoOpts false) ["img-a", "img-b", "img-c"] []).state.trace = 0 ∧
      deleteCalls (Run (demoEnv (demoClient ["abc123def", "xyz999", "abc123"] ["img-b"]))
        (demoOpts false) ["img-a", "img-b", "img-c"] []).state.trace = ["img-a", "img-b"] :=
  ⟨((C8_both_sweeps_in_order (demoEnv (demoClient ["abc123def", "xyz999", "abc123"] ["img-b"]))
      (demoOpts true) ["img-a", "img-b", "img-c"] []).1 demoAuth rfl rfl
      [⟨"abc123def"⟩, ⟨"xyz999"⟩, ⟨"abc123"⟩] rfl).2.2 1 (.errorString "image not found")
      (by decide) |>.trans (by decide),
    (C8_both_sweeps_in_order (demoEnv (demoClient ["abc123def", "xyz999", "abc123"] ["img-b"]))
      (demoOpts false) ["img-a", "img-b", "img-c"] []).2.1 rfl,
    ((C8_both_sweeps_in_order (demoEnv (demoClient ["abc123def", "xyz999", "abc123"] ["img-b"]))
      (demoOpts false) ["img-a", "img-b", "img-c"] []).2.2.1 demoAuth rfl rfl).2 1
      (.errorString "image not found") (by decide)⟩

/-- C9. When no credential record is supplied and the provider fails, `Run`
returns the provider error wrapped with the message prefix "could not retrieve
credentials: " after that one call: no `List` and no `DeleteByName` call is made and
the world is untouched. When a record is supplied the provider is not called, and in
all mode with `List` succeeding the all-mode sweep deletes the listed digests that
start with the owner id of the supplied record. When none is supplied and the
provider succeeds, it is called exactly once. -/
theorem C9_credentials_lazy_and_fatal {σ : Type} (env : Env σ) (opts : RemoveOptions σ)
    (args : List String) (w : σ) :
    (∀ e, opts.Auth = none → env.GetKraftCloudAuthConfigFromContext = .error e →
      (Run env opts args w).err = some (errorfW "could not retrieve credentials: " e) ∧
        (errorfW "could not retrieve credentials: " e).Error =
          "could not retrieve credentials: " ++ e.Error ∧
        (errorfW "could not retrieve credentials: " e).Unwrap = some e ∧
        (Run env opts args w).state.trace = [Event.getCredentials] ∧
        listCalls (Run env opts args w).state.trace = 0 ∧
        deleteCalls (Run env opts args w).state.trace = [] ∧
        (Run env opts args w).state.world = w) ∧
    (∀ a, opts.Auth = some a →
      credentialCalls (Run env opts args w).state.trace = 0 ∧
        (opts.All = true → ∀ images,
          ((resolvedClient env opts a).List opts.Metro w).1 = .ok images →
          deleteCallsAt .allMode (Run env opts args w).state.trace =
            (images.map Image.Digest).filter (fun d => HasPrefix d (ownerId a.User)))) ∧
    (∀ a, opts.Auth = none → env.GetKraftCloudAuthConfigFromContext = .ok a →
      credentialCalls (Run env opts args w).state.trace = 1) := by
  refine ⟨fun e hnil herr => ?_, fun a hsome => ?_, fun a hnil hok => ?_⟩
  · obtain ⟨he, ht, hw⟩ := run_noCredentials env opts args w e hnil herr
    refine ⟨he, rfl, rfl, ht, ?_, ?_, hw⟩
    · rw [ht]; rfl
    · rw [ht]; rfl
  · have hauth : resolvedAuth env opts = .ok a := by simp [resolvedAuth, hsome]
    refine ⟨?_, fun hall images hlist =>
      run_allMode_calls env opts args w a images hauth hall hlist⟩
    rw [(run_counts env opts args w a hauth).1, hsome]
    rfl
  · have hauth : resolvedAuth env opts = .ok a := by simp [resolvedAuth, hnil, hok]
    rw [(run_counts env opts args w a hauth).1, if_pos hnil]

/-- C9 on the worked inputs: no record supplied and a failing provider, in all mode
with an argument also given; and a supplied record, with the same failing provider. -/
theorem C9_credentials_lazy_and_fatal_witness :
    (Run (demoEnv (demoClient ["abc123def"] [])) ⟨true, none, none, "fra0"⟩ ["img-a"] []).err =
        some (.wrapError "could not retrieve credentials: no credentials in context"
          (.errorString "no credentials in context")) ∧
      (Run (demoEnv (demoClient ["abc123def"] [])) ⟨true, none, none, "fra0"⟩ ["img-a"]
        []).state.trace = [Event.getCredentials] ∧
      credentialCalls (Run (demoEnv (demoClient ["abc123def", "xyz999"] [])) (demoOpts true)
        ["img-a"] []).state.trace = 0 ∧
      deleteCallsAt .allMode (Run (demoEnv (demoClient ["abc123def", "xyz999"] []))
        (demoOpts true) ["img-a"] []).state.trace = ["abc123def"] :=
  ⟨((C9_credentials_lazy_and_fatal (demoEnv (demoClient ["abc123def"] []))
      ⟨true, none, none, "fra0"⟩ ["img-a"] []).1 (.errorString "no credentials in context")
      rfl rfl).1,
    ((C9_credentials_lazy_and_fatal (demoEnv (demoClient ["abc123def"] []))
      ⟨true, none, none, "fra0"⟩ ["img-a"] []).1 (.errorString "no credentials in context")
      rfl rfl).2.2.2.1,
    ((C9_credentials_lazy_and_fatal (demoEnv (demoClient ["abc123def", "xyz999"] []))
      (demoOpts true) ["img-a"] []).2.1 demoAuth rfl).1,
    (((C9_credentials_lazy_and_fatal (demoEnv (demoClient ["abc123def", "xyz999"] []))
      (demoOpts true) ["img-a"] []).2.1 demoAuth rfl).2 rfl [⟨"abc123def"⟩, ⟨"xyz999"⟩]
      rfl).trans (by decide)⟩

/-- C10. In all mode with `List` succeeding, when the user of the credentials is the
empty string, `robot$`, `.users.kraftcloud` or `robot$.users.kraftcloud`, the owner
id is the empty string and every listed image, whatever its digest, is passed to
`DeleteByName`; and for a user with neither the prefix `robot$` nor the suffix
`.users.kraftcloud` the owner id is the user unchanged. -/
theorem C10_empty_owner_id_selects_everything {σ : Type} (env : Env σ)
    (opts : RemoveOptions σ) (args : List String) (w : σ) (a : AuthConfig)
    (images : List Image) (hall : opts.All = true) (hauth : resolvedAuth env opts = .ok a)
    (hlist : ((resolvedClient env opts a).List opts.Metro w).1 = .ok images) :
    (a.User = "" ∨ a.User = "robot$" ∨ a.User = ".users.kraftcloud" ∨
        a.User = "robot$.users.kraftcloud" →
      ownerId a.User = "" ∧
        deleteCallsAt .allMode (Run env opts args w).state.trace = images.map Image.Digest) ∧
    (HasPrefix a.User "robot$" = false → HasSuffix a.User ".users.kraftcloud" = false →
      ownerId a.User = a.User) := by
  constructor
  · intro hu
    have ho : ownerId a.User = "" := by
      rcases hu with h | h | h | h <;> rw [h] <;> decide
    exact ⟨ho, by rw [run_allMode_calls env opts args w a images hauth hall hlist,
      ownedDigests_of_empty a.User images ho]⟩
  · intro hp hs
    simp [ownerId, TrimPrefix, TrimSuffix, hp, hs]

/-- C10 on the worked inputs: user `robot$.users.kraftcloud` and a listing of
unrelated digests; and user `alice`. -/
theorem C10_empty_owner_id_selects_everything_witness :
    deleteCallsAt .allMode
        (Run (demoEnv (demoClient ["abc123def", "xyz999"] []))
          ⟨true, some ⟨"robot$.users.kraftcloud", "secret"⟩, none, "fra0"⟩ [] []).state.trace =
        ["abc123def", "xyz999"] ∧
      ownerId "alice" = "alice" :=
  ⟨((C10_empty_owner_id_selects_everything (demoEnv (demoClient ["abc123def", "xyz999"] []))
      ⟨true, some ⟨"robot$.users.kraftcloud", "secret"⟩, none, "fra0"⟩ [] []
      ⟨"robot$.users.kraftcloud", "secret"⟩ [⟨"abc123def"⟩, ⟨"xyz999"⟩] rfl rfl rfl).1
      (Or.inr (Or.inr (Or.inr rfl)))).2,
    (C10_empty_owner_id_selects_everything (demoEnv (demoClient ["abc123def"] []))
      ⟨true, some ⟨"alice", "secret"⟩, none, "fra0"⟩ [] []
      ⟨"alice", "secret"⟩ [⟨"abc123def"⟩] rfl rfl rfl).2 (by decide) (by decide)⟩

end Kraftkit.Remove
